import Mathlib

/-!
Verification of the LeetSpeak voice-client core against its specification.

The definitions below are a shallow embedding of the JavaScript sources:

* `TranscriptManager` — src/app/frontend/src/lib/TranscriptManager.js
* the capture codec    — src/app/frontend/public/audio-processor.js
* `AudioManager`       — src/unnamed/part_003 (AudioManager.js)
* the shutdown logic of `LeetSpeakVoiceClient.stopVoiceChat` /
  `handleBackendMessage` — src/unnamed/part_002 (the modular voice client)
* the WebSocket close wiring — src/app/frontend/src/lib/WebSocketManager.js

JavaScript strings that may be `null`/`undefined` are embedded as
`Option String`; JS truthiness of such a value is "is `some s` with `s`
non-empty".  `Date.now()` timestamps are embedded as `Int` arguments.
JS `Map`/`Set` become insertion-ordered association lists / lists.
-/

namespace LeetSpeak

/-- JS truthiness for a nullable string: `null`/`undefined` and `""` are falsy. -/
def truthy : Option String → Bool
  | none => false
  | some s => s ≠ ""

/-! ## TranscriptManager (src/app/frontend/src/lib/TranscriptManager.js) -/

/-- State of `TranscriptManager`.  `responseTranscripts` is a JS `Map`
(insertion-ordered association list), `completedResponses` and
`cancelledResponses` are JS `Set`s (lists without duplicates as used here). -/
structure TMState where
  currentResponse : String
  responseTranscripts : List (String × String)
  completedResponses : List String
  cancelledResponses : List String
  activeResponseId : Option String
  isCancelling : Bool
  lastBargeInTime : Int
  deriving Repr, DecidableEq

/-- The state built by the `TranscriptManager` constructor. -/
def TMState.init : TMState :=
  { currentResponse := ""
    responseTranscripts := []
    completedResponses := []
    cancelledResponses := []
    activeResponseId := none
    isCancelling := false
    lastBargeInTime := 0 }

/-- `Map.get` on the embedded `responseTranscripts`. -/
def mapGet (m : List (String × String)) (k : String) : Option String :=
  (m.find? (fun p => p.1 = k)).map (fun p => p.2)

/-- `Map.set`: update in place if the key exists, else append (JS `Map`
preserves insertion order). -/
def mapSet (m : List (String × String)) (k v : String) : List (String × String) :=
  if (m.find? (fun p => p.1 = k)).isSome then
    m.map (fun p => if p.1 = k then (k, v) else p)
  else
    m ++ [(k, v)]

/-- Events observable through the `onMessage` / `onTranscript` callbacks. -/
inductive TMEv where
  | message (sender text mtype : String)
  | transcript (ttype text : String)
  deriving Repr, DecidableEq

/-- `showTyping(show)` — emits a typing-indicator message. -/
def showTypingEvs (sh : Bool) : List TMEv :=
  if sh then [.message "System" "typing" "typing"]
  else [.message "System" "typing" "typing-hide"]

/-- `TIMING_CONFIG.BARGE_IN_COOLDOWN_MS` from constants.js. -/
def bargeInCooldownMs : Int := 1200

/-- `handleSpeechStarted()`.  `nowTs` stands for `Date.now()`.  Returns the
updated state, whether an interrupt is signalled, and the emitted events. -/
def handleSpeechStarted (st : TMState) (nowTs : Int) : TMState × Bool × List TMEv :=
  if nowTs - st.lastBargeInTime < bargeInCooldownMs then
    (st, false, [])
  else if truthy st.activeResponseId && !st.isCancelling then
    ({ st with lastBargeInTime := nowTs }, true,
      [.message "System" "🎤 Speech detected (interrupt)..." "system"])
  else
    (st, false, [])

/-- `startResponse(responseId)` (with the default `isEvaluation = false`). -/
def startResponse (st : TMState) (responseId : Option String) : TMState × List TMEv :=
  ({ st with
      currentResponse := ""
      isCancelling := false
      activeResponseId := responseId },
    showTypingEvs true)

/-- `handleResponseDelta(delta, responseId)`. -/
def handleResponseDelta (st : TMState) (delta responseId : Option String) : TMState :=
  if truthy delta && truthy responseId then
    match delta, responseId with
    | some d, some rid =>
      let updated := (mapGet st.responseTranscripts rid).getD "" ++ d
      { st with
          responseTranscripts := mapSet st.responseTranscripts rid updated
          currentResponse := updated }
    | _, _ => st
  else st

/-- The transcript `handleResponseComplete` would deliver for `rid`:
`this.responseTranscripts.get(responseId) || this.currentResponse`
(JS `||`: an absent entry and the empty string both fall back). -/
def finalTranscriptFor (st : TMState) (rid : String) : String :=
  match mapGet st.responseTranscripts rid with
  | some t => if t ≠ "" then t else st.currentResponse
  | none => st.currentResponse

/-- `handleResponseComplete(responseId)`.  Returns the new state and the
events emitted via `onMessage` / `onTranscript`. -/
def handleResponseComplete (st : TMState) (responseId : Option String) :
    TMState × List TMEv :=
  match responseId with
  | some rid =>
    if rid ≠ "" ∧ rid ∉ st.completedResponses then
      let st1 : TMState :=
        { st with
            completedResponses := st.completedResponses ++ [rid]
            activeResponseId :=
              if st.activeResponseId = some rid then none else st.activeResponseId }
      let t := finalTranscriptFor st rid
      (st1, showTypingEvs false ++
        (if t ≠ "" then [.message "" t "ai", .transcript "ai" t] else []))
    else if rid ≠ "" then
      ({ st with
          activeResponseId :=
            if st.activeResponseId = some rid then none else st.activeResponseId },
        showTypingEvs false)
    else (st, [])
  | none => (st, [])

/-- `reset()`. -/
def TMState.reset (_st : TMState) : TMState := TMState.init

/-- A "finished message": the accumulated transcript delivered with
message type `"ai"`. -/
def isFinishedMsg : TMEv → Bool
  | .message _ _ ty => ty = "ai"
  | _ => false

/-- Number of finished messages among a list of emitted events. -/
def countFinished (evs : List TMEv) : Nat :=
  (evs.filter isFinishedMsg).length

/-- Concatenation of a list of strings in order. -/
def concatAll : List String → String
  | [] => ""
  | d :: rest => d ++ concatAll rest

/-! ## Capture codec (src/app/frontend/public/audio-processor.js)

`AudioProcessor.process` accumulates float samples into a 1200-sample
buffer; when full it converts each sample with
`Math.max(-1, Math.min(1, x))` followed by `x < 0 ? x * 0x8000 : x * 0x7FFF`
and stores it into an `Int16Array` (truncation toward zero, wrap mod 2^16).
Samples are embedded as rationals. -/

/-- `bufferSize` of the worklet. -/
def bufferSize : Nat := 1200

/-- `Math.max(-1, Math.min(1, sample))`. -/
def clampSample (x : ℚ) : ℚ := max (-1) (min 1 x)

/-- JS `ToIntegerOrInfinity` on a finite value: truncation toward zero. -/
def truncInt (q : ℚ) : ℤ := if 0 ≤ q then ⌊q⌋ else ⌈q⌉

/-- Storing an integer into an `Int16Array` slot: wrap mod 2^16 into
`[-32768, 32767]`. -/
def toInt16 (z : ℤ) : ℤ :=
  if z % 65536 ≥ 32768 then z % 65536 - 65536 else z % 65536

/-- Conversion of one sample to 16-bit PCM, exactly as in
`AudioProcessor.process`: clamp, scale negatives by 0x8000 and
non-negatives by 0x7FFF, store into the `Int16Array`. -/
def encodeSample (x : ℚ) : ℤ :=
  toInt16 (truncInt
    (if clampSample x < 0 then clampSample x * 32768 else clampSample x * 32767))

/-- Encoding of one full frame. -/
def encodeFrame (buf : List ℚ) : List ℤ := buf.map encodeSample

/-- The sample loop of `AudioProcessor.process`, over a flattened input
stream: push each sample; when the buffer reaches `bufferSize`, emit the
encoded frame and reset the accumulator.  Returns the leftover buffer and
the emitted frames. -/
def feedSamples : List ℚ → List ℚ → List ℚ × List (List ℤ)
  | buf, [] => (buf, [])
  | buf, x :: rest =>
    let buf1 := buf ++ [x]
    if buf1.length ≥ bufferSize then
      let out := feedSamples [] rest
      (out.1, encodeFrame buf1 :: out.2)
    else
      feedSamples buf1 rest

/-! ## AudioManager playback (src/unnamed/part_003, AudioManager.js)

The playback scheduler: `audioQueue` of decoded buffers (type `α`),
`audioChunks` of raw base64 chunks, the `isPlaying` / `isProcessingAudio`
flags and the `currentAudioSource` reference.  `playQueue`, the
`source.onended` callback, and `interrupt` are embedded directly; an
"enqueue" is the `audioQueue.push` performed by `playAudioChunks`
followed by its call to `playQueue`. -/

structure AMState (α : Type) where
  audioQueue : List α
  audioChunks : List String
  isPlaying : Bool
  isProcessingAudio : Bool
  currentAudioSource : Option α
  deriving Repr, DecidableEq

/-- The state built by the `AudioManager` constructor. -/
def AMState.init (α : Type) : AMState α :=
  { audioQueue := []
    audioChunks := []
    isPlaying := false
    isProcessingAudio := false
    currentAudioSource := none }

/-- `playQueue()`: if already playing or the queue is empty do nothing;
otherwise shift the head, mark playing, remember the source and start it.
Returns the started buffer, if any. -/
def playQueue {α : Type} (s : AMState α) : AMState α × Option α :=
  if s.isPlaying then (s, none)
  else
    match s.audioQueue with
    | [] => (s, none)
    | b :: rest =>
      ({ s with isPlaying := true, audioQueue := rest, currentAudioSource := some b },
        some b)

/-- The `source.onended` callback: clear the flags and continue with the
next queued buffer. -/
def onended {α : Type} (s : AMState α) : AMState α × Option α :=
  playQueue { s with isPlaying := false, currentAudioSource := none }

/-- Enqueue one decoded buffer and run `playQueue`, as `playAudioChunks`
does after a successful decode. -/
def enqueuePlay {α : Type} (s : AMState α) (b : α) : AMState α × Option α :=
  playQueue { s with audioQueue := s.audioQueue ++ [b] }

/-- Enqueue a list of buffers one after the other, collecting the buffers
whose playback was started. -/
def enqueueAll {α : Type} (s : AMState α) : List α → AMState α × List α
  | [] => (s, [])
  | b :: rest =>
    let o1 := enqueuePlay s b
    let o2 := enqueueAll o1.1 rest
    (o2.1, o1.2.toList ++ o2.2)

/-- Let playback run to completion: fire `onended` while something is
playing, collecting the buffers started by each callback.  `fuel` bounds
the number of callbacks (any `fuel ≥ audioQueue.length + 1` drains). -/
def drainTrace {α : Type} : Nat → AMState α → List α
  | 0, _ => []
  | fuel + 1, s =>
    if s.isPlaying then
      let o := onended s
      o.2.toList ++ drainTrace fuel o.1
    else []

/-- `clearQueues()`. -/
def clearQueues {α : Type} (s : AMState α) : AMState α :=
  { s with audioChunks := [], audioQueue := [] }

/-- `interrupt()`: stop the current source (if any), clear both queues and
reset `isProcessingAudio`.  The Boolean reports whether `stop()` was
called on a source.  Note the `isPlaying` flag of the manager is NOT touched. -/
def interrupt {α : Type} (s : AMState α) : AMState α × Bool :=
  let stopped := s.currentAudioSource.isSome
  ((clearQueues { s with currentAudioSource := none, isProcessingAudio := false }),
    stopped)

/-! ## Shutdown logic of the modular client (src/unnamed/part_002)

`LeetSpeakVoiceClient.stopVoiceChat` and the shutdown block of
`handleBackendMessage` form an event-driven protocol.  The state below
projects the fields this protocol reads and writes:
`transcriptManager.activeResponseId` / `completedResponses`,
`isWaitingForEvaluation`, `evaluationTriggered`, `shutdownResolve`
(modelled as the Boolean "is non-null"), the resolution state of the
completion promise, whether a handler-launched trigger-evaluation fetch
is in flight, and the continuation of the suspended `stopVoiceChat`
coroutine.  The run-to-completion semantics of JavaScript make each callback
segment (between `await`s / promise callbacks) atomic; each such segment
is one transition.  The scheduler/backend chooses the interleaving via
a list of `Act`ions. -/

/-- Where the `stopVoiceChat` coroutine is suspended. -/
inductive StopCo where
  | awaitingPromise
  | awaitingFetch
  | finished
  | errored
  deriving Repr, DecidableEq

/-- Observable events of a shutdown run. -/
inductive Ev where
  | handledDone (id : String)
  | createdHandled (id : Option String)
  | triggerEval
  | resolveCall
  | nullResolveCrash
  | stopSessionCall
  deriving Repr, DecidableEq

/-- Scheduler/backend actions. -/
inductive Act where
  | doneEvt (id : String)
  | createdEvt (id : Option String)
  | fetchThen
  | fetchCatch
  | stopFetchThen
  | stopFetchCatch
  | stopResume
  deriving Repr, DecidableEq

/-- Projected client state during shutdown. -/
structure CState where
  active : Option String
  completed : List String
  waiting : Bool
  evalTriggered : Bool
  resolver : Bool
  resolved : Bool
  pending : Bool
  stopCo : StopCo
  deriving Repr, DecidableEq

/-- The effect of `transcriptManager.handleResponseComplete(id)` on the two
fields the shutdown logic reads (both its branches clear a matching
`activeResponseId`; only the first adds to `completedResponses`). -/
def completeTM (active : Option String) (completed : List String) (id : String) :
    Option String × List String :=
  if id ≠ "" then
    ((if active = some id then none else active),
     (if id ∈ completed then completed else completed ++ [id]))
  else (active, completed)

/-- An unguarded `this.shutdownResolve(); this.shutdownResolve = null;`:
if the resolver is non-null it resolves the promise, otherwise the call
throws a TypeError (recorded as `nullResolveCrash`). -/
def resolveNow (s : CState) : CState × List Ev :=
  if s.resolver then
    ({ s with resolved := true, resolver := false }, [.resolveCall])
  else (s, [.nullResolveCrash])

/-- Delivery of a `RESPONSE_AUDIO_TRANSCRIPT_DONE` event:
`handleResponseComplete` followed by the shutdown block of
`handleBackendMessage` (guarded by `isWaitingForEvaluation && shutdownResolve`). -/
def stepDone (s : CState) (id : String) : CState × List Ev :=
  let tm := completeTM s.active s.completed id
  let s1 := { s with active := tm.1, completed := tm.2 }
  let evs1 := if id ≠ "" then [Ev.handledDone id] else []
  if s1.waiting ∧ s1.resolver then
    if s1.active = none ∧ s1.evalTriggered = false then
      ({ s1 with evalTriggered := true, pending := true }, evs1 ++ [.triggerEval])
    else if s1.active = none ∧ s1.evalTriggered = true then
      let r := resolveNow { s1 with waiting := false }
      (r.1, evs1 ++ r.2)
    else (s1, evs1)
  else (s1, evs1)

/-- Delivery of `RESPONSE_CREATED`: `startResponse` sets the active id. -/
def stepCreated (s : CState) (id : Option String) : CState × List Ev :=
  ({ s with active := id }, [.createdHandled id])

/-- The `.then` callback of the handler-launched trigger-evaluation fetch:
if no evaluation response has started and we are still waiting, resolve. -/
def stepFetchThen (s : CState) : CState × List Ev :=
  if s.pending then
    let s1 := { s with pending := false }
    if s1.active = none ∧ s1.waiting = true then
      let r := resolveNow { s1 with waiting := false }
      (r.1, r.2)
    else (s1, [])
  else (s, [])

/-- The `.catch` callback of the handler-launched fetch. -/
def stepFetchCatch (s : CState) : CState × List Ev :=
  if s.pending then
    let s1 := { s with pending := false }
    if s1.waiting = true then
      let r := resolveNow { s1 with waiting := false }
      (r.1, r.2)
    else (s1, [])
  else (s, [])

/-- Resumption of `stopVoiceChat` after `await completionPromise`: call
`sessionManager.stopSession()`, disconnect, and clear transcript state. -/
def stepStopResume (s : CState) : CState × List Ev :=
  if s.stopCo = StopCo.awaitingPromise ∧ s.resolved = true then
    ({ s with stopCo := .finished, active := none, completed := [] },
      [.stopSessionCall])
  else (s, [])

/-- Resumption of the no-active-response branch of `stopVoiceChat` after a
successful trigger-evaluation fetch (lines 157–168 of part_002).  Note the
resolve call here is guarded only by `activeResponseId === null`: if the
resolver was already nulled by the event-driven path, the call throws and
the outer catch runs. -/
def stepStopFetchThen (s : CState) : CState × List Ev :=
  if s.stopCo = StopCo.awaitingFetch then
    if s.active = none then
      let s1 := { s with waiting := false }
      if s1.resolver then
        ({ s1 with resolved := true, resolver := false, stopCo := .finished,
                   active := none, completed := [] },
          [.resolveCall, .stopSessionCall])
      else
        ({ s1 with stopCo := .errored, evalTriggered := false },
          [.nullResolveCrash])
    else
      ({ s with stopCo := .awaitingPromise }, [])
  else (s, [])

/-- Resumption after a failed trigger-evaluation fetch in the
no-active-response branch (proceed immediately). -/
def stepStopFetchCatch (s : CState) : CState × List Ev :=
  if s.stopCo = StopCo.awaitingFetch then
    if s.waiting = true then
      let s1 := { s with waiting := false }
      if s1.resolver then
        ({ s1 with resolved := true, resolver := false, stopCo := .finished,
                   active := none, completed := [] },
          [.resolveCall, .stopSessionCall])
      else
        ({ s1 with stopCo := .errored, evalTriggered := false },
          [.nullResolveCrash])
    else
      ({ s with stopCo := .finished, active := none, completed := [] },
        [.stopSessionCall])
  else (s, [])

/-- One scheduler step. -/
def step (s : CState) : Act → CState × List Ev
  | .doneEvt id => stepDone s id
  | .createdEvt id => stepCreated s id
  | .fetchThen => stepFetchThen s
  | .fetchCatch => stepFetchCatch s
  | .stopFetchThen => stepStopFetchThen s
  | .stopFetchCatch => stepStopFetchCatch s
  | .stopResume => stepStopResume s

/-- Run a list of scheduler steps, collecting the trace. -/
def stepsRun (s : CState) : List Act → CState × List Ev
  | [] => (s, [])
  | a :: rest =>
    let o1 := step s a
    let o2 := stepsRun o1.1 rest
    (o2.1, o1.2 ++ o2.2)

/-- The synchronous prefix of `stopVoiceChat` up to its first suspension
point, given the values of `activeResponseId` and
`completedResponses` at the moment of the call. -/
def stopInit (active0 : Option String) (completed0 : List String) : CState × List Ev :=
  let base : CState :=
    { active := active0, completed := completed0,
      waiting := true, evalTriggered := false,
      resolver := true, resolved := false,
      pending := false, stopCo := .awaitingPromise }
  if active0 = none then
    ({ base with evalTriggered := true, stopCo := .awaitingFetch }, [.triggerEval])
  else
    (base, [])

/-- A full shutdown run: `stopVoiceChat` up to its first suspension, then
the scheduled interleaving. -/
def runShutdown (active0 : Option String) (completed0 : List String)
    (acts : List Act) : CState × List Ev :=
  let o1 := stopInit active0 completed0
  let o2 := stepsRun o1.1 acts
  (o2.1, o1.2 ++ o2.2)

/-- Is this event an actual invocation of the shutdown resolver? -/
def isResolve : Ev → Bool
  | .resolveCall => true
  | _ => false

/-- How often the pending shutdown resolver was actually invoked. -/
def countResolves (evs : List Ev) : Nat :=
  (evs.filter isResolve).length

/-- Scan for the first occurrence of `a` or `b`: `some true` if `a` comes
first, `some false` if `b` comes first, `none` if neither occurs. -/
def obState (a b : Ev) : List Ev → Option Bool
  | [] => none
  | e :: rest => if e = b then some false else if e = a then some true else obState a b rest

/-- `a` occurs strictly before every occurrence of `b` (vacuously true if
`b` never occurs). -/
def occursBefore (a b : Ev) (tr : List Ev) : Bool :=
  (obState a b tr).getD true

/-- Well-formed backend/scheduler behaviour for a shutdown run with active
response `rid` and (potential) evaluation response `eId`, threaded over
the consumed-action flags: each response completes at most once, the
evaluation response is created only after the evaluation was triggered
(i.e. after the completion of `rid`) and before any trigger-fetch callback
runs, its completion follows its creation, and the trigger fetch does not
fail. -/
def wfShutdownActs (rid eId : String) :
    List Act → Bool → Bool → Bool → Bool → Bool
  | [], _, _, _, _ => true
  | a :: rest, cdR, cCr, cdE, cfT =>
    match a with
    | .doneEvt i =>
      if i = rid then !cdR && wfShutdownActs rid eId rest true cCr cdE cfT
      else if i = eId then cCr && !cdE && wfShutdownActs rid eId rest cdR cCr true cfT
      else false
    | .createdEvt o =>
      o == some eId && !cCr && cdR && !cfT && wfShutdownActs rid eId rest cdR true cdE cfT
    | .fetchThen => wfShutdownActs rid eId rest cdR cCr cdE true
    | .fetchCatch => false
    | .stopFetchThen => wfShutdownActs rid eId rest cdR cCr cdE cfT
    | .stopFetchCatch => wfShutdownActs rid eId rest cdR cCr cdE cfT
    | .stopResume => wfShutdownActs rid eId rest cdR cCr cdE cfT

/-- Basic well-formed backend behaviour for a shutdown run with active
response `rid` and (potential) evaluation response `eId`: each response
completes at most once, the evaluation response is created at most once
and only after the completion of `rid` (the evaluation is triggered while
handling it), and its completion follows its creation.  Unlike
`wfShutdownActs` this places no constraint on how the trigger fetch's
callbacks interleave with the events of the evaluation response. -/
def wfBase (rid eId : String) : List Act → Bool → Bool → Bool → Bool
  | [], _, _, _ => true
  | a :: rest, cdR, cCr, cdE =>
    match a with
    | .doneEvt i =>
      if i = rid then !cdR && wfBase rid eId rest true cCr cdE
      else if i = eId then cCr && !cdE && wfBase rid eId rest cdR cCr true
      else false
    | .createdEvt o =>
      (o == some eId) && !cCr && cdR && wfBase rid eId rest cdR true cdE
    | _ => wfBase rid eId rest cdR cCr cdE

/-- The ordering asserted by the shutdown claim: the backend stop-session
call comes strictly after the completion of the active response was
handled, strictly after the completion of the evaluation response was
handled whenever
an evaluation response started, and strictly after the shared completion
promise was resolved. -/
def shutdownOrdered (rid eId : String) (tr : List Ev) : Prop :=
  occursBefore (.handledDone rid) .stopSessionCall tr = true ∧
  (Ev.createdHandled (some eId) ∈ tr →
    occursBefore (.handledDone eId) .stopSessionCall tr = true) ∧
  occursBefore .resolveCall .stopSessionCall tr = true

/-- Reachability invariant of the active-response shutdown runs, indexed
by which well-formed actions have been consumed so far (`cdR`: the done
event of `rid`, `cCr`: the created event of the evaluation, `cdE`: the
done event of the evaluation, `cfT`: the `.then` callback of the trigger
fetch). -/
def ShutInv (rid eId : String) (cdR cCr cdE cfT : Bool) (s : CState) : Prop :=
  (s.stopCo = StopCo.awaitingPromise ∨ s.stopCo = StopCo.finished) ∧
  (s.stopCo = StopCo.finished → s.resolved = true) ∧
  (cCr = true → cdR = true) ∧
  (cdE = true → cCr = true) ∧
  (cdR = false →
    cCr = false ∧ cdE = false ∧ s.active = some rid ∧ s.evalTriggered = false ∧
    s.waiting = true ∧ s.resolver = true ∧ s.resolved = false ∧ s.pending = false ∧
    s.stopCo = StopCo.awaitingPromise) ∧
  (cdR = true → cCr = false → cdE = false →
    s.active = none ∧ s.evalTriggered = true ∧
    ((s.waiting = true ∧ s.resolver = true ∧ s.resolved = false ∧ s.pending = true) ∨
     (s.waiting = false ∧ s.resolver = false ∧ s.resolved = true ∧ s.pending = false))) ∧
  (cCr = true → cdE = false →
    s.active = some eId ∧ s.evalTriggered = true ∧ s.waiting = true ∧
    s.resolver = true ∧ s.resolved = false ∧ s.stopCo = StopCo.awaitingPromise) ∧
  (cdE = true →
    s.active = none ∧ s.waiting = false ∧ s.resolver = false ∧ s.resolved = true) ∧
  (s.resolved = true → cfT = true ∨ cdE = true)

/-! ## WebSocket close wiring (src/app/frontend/src/lib/WebSocketManager.js)

When the socket closes, the `onclose` handler of `WebSocketManager` fires
`onConnectionChange(DISCONNECTED)` and then calls
`this.handleDisconnection()` — the method of the **manager itself**, which merely
fires `onConnectionChange(DISCONNECTED)` again.  The
`handleConnectionChange` method of the client only updates `isConnected`
and broadcasts.
`LeetSpeakVoiceClient.handleDisconnection` (part_002 lines 342–347) is the
method that would run the stop sequence and surface the error, but nothing
in the modular wiring ever calls it. -/

/-- Calls reaching the voice client (or its callbacks) from the transport. -/
inductive ClientCall where
  | connectionChange (state : String)
  | stopVoiceChatCall
  | errorCallback (msg : String)
  deriving Repr, DecidableEq

/-- `WebSocketManager.handleDisconnection()` (the stub of the manager itself). -/
def wsManagerHandleDisconnection : List ClientCall :=
  [.connectionChange "disconnected"]

/-- Everything the modular client receives when the `onclose` handler of
the websocket fires (WebSocketManager.js lines 42–47).  Independent of
session state. -/
def wsOnCloseCalls : List ClientCall :=
  [.connectionChange "disconnected"] ++ wsManagerHandleDisconnection

/-- `LeetSpeakVoiceClient.handleDisconnection()` — what the client *would*
do on an involuntary disconnect, were it invoked. -/
def clientHandleDisconnection (sessionActive isIntentionallyStopping : Bool) :
    List ClientCall :=
  if sessionActive && !isIntentionallyStopping then
    [.stopVoiceChatCall, .errorCallback "Connection lost. Please try again."]
  else []

/-! # Theorems -/

/-! ## Capture codec (C4) -/

theorem clampSample_bounds (x : ℚ) : -1 ≤ clampSample x ∧ clampSample x ≤ 1 :=
  ⟨le_max_left _ _, max_le (by norm_num) (min_le_left _ _)⟩

theorem toInt16_eq_self (z : ℤ) (h1 : -32768 ≤ z) (h2 : z ≤ 32767) : toInt16 z = z := by
  unfold toInt16
  split_ifs <;> omega

theorem encodeSample_bounds (x : ℚ) :
    -32768 ≤ encodeSample x ∧ encodeSample x ≤ 32767 := by
  obtain ⟨hl, hr⟩ := clampSample_bounds x
  unfold encodeSample
  set s := clampSample x with hs
  by_cases hneg : s < 0
  · rw [if_pos hneg]
    have hv0 : s * 32768 < 0 := by nlinarith
    have hv1 : ((-32768 : ℤ) : ℚ) ≤ s * 32768 := by push_cast; nlinarith
    have ht : truncInt (s * 32768) = ⌈s * 32768⌉ := by
      unfold truncInt
      rw [if_neg (not_le.mpr hv0)]
    have hb1 : -32768 ≤ truncInt (s * 32768) := by
      rw [ht]
      calc (-32768 : ℤ) = ⌈((-32768 : ℤ) : ℚ)⌉ := (Int.ceil_intCast _).symm
        _ ≤ ⌈s * 32768⌉ := Int.ceil_mono hv1
    have hb2 : truncInt (s * 32768) ≤ 32767 := by
      rw [ht]
      have : ⌈s * 32768⌉ ≤ 0 := Int.ceil_le.mpr (by push_cast; linarith)
      omega
    rw [toInt16_eq_self _ hb1 hb2]
    exact ⟨hb1, hb2⟩
  · rw [if_neg hneg]
    push_neg at hneg
    have hv1 : (0 : ℚ) ≤ s * 32767 := by nlinarith
    have hv2 : s * 32767 ≤ ((32767 : ℤ) : ℚ) := by push_cast; nlinarith
    have ht : truncInt (s * 32767) = ⌊s * 32767⌋ := by
      unfold truncInt
      rw [if_pos hv1]
    have hb1 : -32768 ≤ truncInt (s * 32767) := by
      rw [ht]
      have : (0 : ℤ) ≤ ⌊s * 32767⌋ := Int.le_floor.mpr (by push_cast; linarith)
      omega
    have hb2 : truncInt (s * 32767) ≤ 32767 := by
      rw [ht]
      calc ⌊s * 32767⌋ ≤ ⌊((32767 : ℤ) : ℚ)⌋ := Int.floor_mono hv2
        _ = 32767 := Int.floor_intCast _
    rw [toInt16_eq_self _ hb1 hb2]
    exact ⟨hb1, hb2⟩

theorem encodeSample_one : encodeSample 1 = 32767 := by
  have h1 : clampSample 1 = 1 := by
    unfold clampSample
    norm_num
  unfold encodeSample
  rw [h1]
  norm_num [truncInt, toInt16]

theorem encodeSample_negOne : encodeSample (-1) = -32768 := by
  have h1 : clampSample (-1) = -1 := by
    unfold clampSample
    norm_num
  unfold encodeSample
  rw [h1]
  norm_num [truncInt, toInt16]
  decide

theorem feedSamples_sound (input : List ℚ) : ∀ buf : List ℚ, buf.length < bufferSize →
    ∀ f ∈ (feedSamples buf input).2, ∃ b : List ℚ, f = encodeFrame b ∧ b.length = bufferSize := by
  induction input with
  | nil =>
    intro buf _ f hf
    simp [feedSamples] at hf
  | cons x rest ih =>
    intro buf h f hf
    simp only [feedSamples] at hf
    by_cases hlen : (buf ++ [x]).length ≥ bufferSize
    · rw [if_pos hlen] at hf
      rcases List.mem_cons.mp hf with h1 | h1
      · refine ⟨buf ++ [x], h1, ?_⟩
        simp only [List.length_append, List.length_cons, List.length_nil] at hlen ⊢
        omega
      · exact ih [] (by simp [bufferSize]) f h1
    · rw [if_neg hlen] at hf
      refine ih (buf ++ [x]) ?_ f hf
      simp only [List.length_append, List.length_cons, List.length_nil] at hlen ⊢
      omega

/-- C4: every frame the capture codec emits (from a fresh worklet) has
exactly 1200 16-bit samples; each sample is clamped to `[-1, 1]` and
scaled so the result always fits a signed 16-bit integer, with `+1.0`
mapping to `32767` and `-1.0` mapping to `-32768` — no overflow for any
input value. -/
theorem captureCodec_correct (input : List ℚ) :
    (∀ f ∈ (feedSamples [] input).2, f.length = bufferSize ∧
      ∀ z ∈ f, -32768 ≤ z ∧ z ≤ 32767) ∧
    encodeSample 1 = 32767 ∧ encodeSample (-1) = -32768 := by
  refine ⟨?_, encodeSample_one, encodeSample_negOne⟩
  intro f hf
  obtain ⟨b, rfl, hb⟩ := feedSamples_sound input [] (by simp [bufferSize]) f hf
  constructor
  · simpa [encodeFrame] using hb
  · intro z hz
    simp only [encodeFrame, List.mem_map] at hz
    obtain ⟨x, _, rfl⟩ := hz
    exact encodeSample_bounds x

/-! ## Transcript accumulation (C7) -/

theorem mapGet_mapSet_self (m : List (String × String)) (k v : String) :
    mapGet (mapSet m k v) k = some v := by
  induction m with
  | nil => simp [mapGet, mapSet]
  | cons p rest ih =>
    by_cases hp : p.1 = k
    · simp [mapGet, mapSet, hp]
    · have h1 : (p :: rest).find? (fun q => decide (q.1 = k)) =
          rest.find? (fun q => decide (q.1 = k)) :=
        List.find?_cons_of_neg _ (by simp [hp])
      by_cases h2 : (rest.find? (fun q => decide (q.1 = k))).isSome
      · have hset : mapSet (p :: rest) k v =
            p :: rest.map (fun q => if q.1 = k then (k, v) else q) := by
          simp [mapSet, h1, h2, hp]
        rw [hset]
        have hrest : mapSet rest k v =
            rest.map (fun q => if q.1 = k then (k, v) else q) := by
          simp [mapSet, h2]
        rw [hrest] at ih
        simpa [mapGet, List.find?_cons_of_neg, hp] using ih
      · have hset : mapSet (p :: rest) k v = p :: (rest ++ [(k, v)]) := by
          simp [mapSet, h1, h2]
        rw [hset]
        have hrest : mapSet rest k v = rest ++ [(k, v)] := by
          simp [mapSet, h2]
        rw [hrest] at ih
        simpa [mapGet, List.find?_cons_of_neg, hp] using ih

theorem handleResponseDelta_skip (st : TMState) (rid : String) :
    handleResponseDelta st (some "") (some rid) = st := by
  simp [handleResponseDelta, truthy]

theorem handleResponseDelta_push (st : TMState) (rid d : String)
    (hrid : rid ≠ "") (hd : d ≠ "") :
    handleResponseDelta st (some d) (some rid) =
      { st with
          responseTranscripts :=
            mapSet st.responseTranscripts rid
              ((mapGet st.responseTranscripts rid).getD "" ++ d)
          currentResponse := (mapGet st.responseTranscripts rid).getD "" ++ d } := by
  simp [handleResponseDelta, truthy, hd, hrid]

theorem handleResponseDelta_fold (rid : String) (hrid : rid ≠ "") :
    ∀ (deltas : List String) (st : TMState),
      (mapGet ((deltas.foldl
          (fun s d => handleResponseDelta s (some d) (some rid)) st).responseTranscripts)
        rid).getD ""
      = (mapGet st.responseTranscripts rid).getD ""
          ++ concatAll (deltas.filter (fun d => d ≠ "")) := by
  intro deltas
  induction deltas with
  | nil => intro st; simp [concatAll]
  | cons d rest ih =>
    intro st
    by_cases hd : d = ""
    · subst hd
      simp only [List.foldl_cons, handleResponseDelta_skip]
      rw [ih st]
      simp [concatAll]
    · simp only [List.foldl_cons, handleResponseDelta_push st rid d hrid hd]
      rw [ih]
      simp only [mapGet_mapSet_self, Option.getD_some]
      simp [concatAll, hd, String.append_assoc]

/-- C7: for any sequence of `handleResponseDelta` calls sharing one
response id (starting from a state with no entry for that id), the
transcript finally stored for that id is the concatenation of the
non-empty deltas in arrival order (empty deltas are skipped by the
truthiness guard). -/
theorem responseDelta_concat (st : TMState) (rid : String) (deltas : List String)
    (hrid : rid ≠ "") (h0 : mapGet st.responseTranscripts rid = none) :
    (mapGet ((deltas.foldl
        (fun s d => handleResponseDelta s (some d) (some rid)) st).responseTranscripts)
      rid).getD ""
    = concatAll (deltas.filter (fun d => d ≠ "")) := by
  rw [handleResponseDelta_fold rid hrid deltas st, h0]
  rfl

/-- Witness for C7 at a concrete input. -/
theorem responseDelta_concat_witness :
    mapGet TMState.init.responseTranscripts "r1" = none ∧
    (mapGet ((["Hel", "", "lo"].foldl
        (fun s d => handleResponseDelta s (some d) (some "r1"))
        TMState.init).responseTranscripts) "r1").getD ""
      = concatAll (["Hel", "", "lo"].filter (fun d => d ≠ "")) :=
  ⟨by decide, responseDelta_concat TMState.init "r1" ["Hel", "", "lo"]
    (by decide) (by decide)⟩

/-! ## Completion idempotence and fallback (C5, C10) -/

theorem handleResponseComplete_fresh (st : TMState) (rid : String)
    (h1 : rid ≠ "") (h2 : rid ∉ st.completedResponses) :
    handleResponseComplete st (some rid) =
      ({ st with
          completedResponses := st.completedResponses ++ [rid]
          activeResponseId :=
            if st.activeResponseId = some rid then none else st.activeResponseId },
        showTypingEvs false ++
          (if finalTranscriptFor st rid ≠ "" then
            [.message "" (finalTranscriptFor st rid) "ai",
             .transcript "ai" (finalTranscriptFor st rid)]
          else [])) := by
  simp [handleResponseComplete, h1, h2]

theorem handleResponseComplete_dup (st : TMState) (rid : String)
    (h1 : rid ≠ "") (h2 : rid ∈ st.completedResponses) :
    handleResponseComplete st (some rid) =
      ({ st with
          activeResponseId :=
            if st.activeResponseId = some rid then none else st.activeResponseId },
        showTypingEvs false) := by
  simp [handleResponseComplete, h1, h2]

/-- C5: for a response id not yet completed whose delivered transcript is
non-empty, calling `handleResponseComplete` twice emits the finished
message exactly once; the second call emits only the typing-hide event
and leaves the state unchanged (its only cleanup — clearing a matching
`activeResponseId` — was already performed by the first call). -/
theorem responseComplete_idempotent (st : TMState) (rid : String)
    (h1 : rid ≠ "") (h2 : rid ∉ st.completedResponses)
    (h3 : finalTranscriptFor st rid ≠ "") :
    countFinished (handleResponseComplete st (some rid)).2 = 1 ∧
    (handleResponseComplete
        (handleResponseComplete st (some rid)).1 (some rid)).2 = showTypingEvs false ∧
    countFinished (handleResponseComplete
        (handleResponseComplete st (some rid)).1 (some rid)).2 = 0 ∧
    (handleResponseComplete
        (handleResponseComplete st (some rid)).1 (some rid)).1 =
      (handleResponseComplete st (some rid)).1 := by
  rw [handleResponseComplete_fresh st rid h1 h2]
  have hmem : rid ∈ st.completedResponses ++ [rid] := by simp
  have hact :
      (if st.activeResponseId = some rid then none else st.activeResponseId) ≠ some rid := by
    by_cases h : st.activeResponseId = some rid <;> simp [h]
  refine ⟨?_, ?_, ?_, ?_⟩
  · simp [countFinished, showTypingEvs, isFinishedMsg, h3]
  · rw [handleResponseComplete_dup _ rid h1 hmem]
  · rw [handleResponseComplete_dup _ rid h1 hmem]
    simp [countFinished, showTypingEvs, isFinishedMsg]
  · rw [handleResponseComplete_dup _ rid h1 hmem]
    simp only [if_neg hact]

/-- Witness for C5 at a concrete input. -/
theorem responseComplete_idempotent_witness :
    countFinished (handleResponseComplete
      { TMState.init with
          responseTranscripts := [("r1", "hi")], activeResponseId := some "r1" }
      (some "r1")).2 = 1 ∧
    (handleResponseComplete
        (handleResponseComplete
          { TMState.init with
              responseTranscripts := [("r1", "hi")], activeResponseId := some "r1" }
          (some "r1")).1 (some "r1")).2 = showTypingEvs false ∧
    countFinished (handleResponseComplete
        (handleResponseComplete
          { TMState.init with
              responseTranscripts := [("r1", "hi")], activeResponseId := some "r1" }
          (some "r1")).1 (some "r1")).2 = 0 ∧
    (handleResponseComplete
        (handleResponseComplete
          { TMState.init with
              responseTranscripts := [("r1", "hi")], activeResponseId := some "r1" }
          (some "r1")).1 (some "r1")).1 =
      (handleResponseComplete
        { TMState.init with
            responseTranscripts := [("r1", "hi")], activeResponseId := some "r1" }
        (some "r1")).1 :=
  responseComplete_idempotent _ "r1" (by decide) (by decide) (by decide)

/-- C10: for a fresh response id with no entry in the transcript map,
`handleResponseComplete` falls back to emitting the current accumulator
`currentResponse` as the finished message of that id when non-empty, and
emits no finished message when both are empty. -/
theorem responseComplete_fallback (st : TMState) (rid : String)
    (h1 : rid ≠ "") (h2 : rid ∉ st.completedResponses)
    (h3 : mapGet st.responseTranscripts rid = none) :
    (st.currentResponse ≠ "" →
      (handleResponseComplete st (some rid)).2 =
        showTypingEvs false ++
          [.message "" st.currentResponse "ai", .transcript "ai" st.currentResponse] ∧
      countFinished (handleResponseComplete st (some rid)).2 = 1) ∧
    (st.currentResponse = "" →
      countFinished (handleResponseComplete st (some rid)).2 = 0) := by
  have hft : finalTranscriptFor st rid = st.currentResponse := by
    simp [finalTranscriptFor, h3]
  rw [handleResponseComplete_fresh st rid h1 h2, hft]
  constructor
  · intro hcur
    constructor
    · simp [hcur]
    · simp [countFinished, showTypingEvs, isFinishedMsg, hcur]
  · intro hcur
    simp [countFinished, showTypingEvs, isFinishedMsg, hcur]

/-- Witness for C10 at a concrete input. -/
theorem responseComplete_fallback_witness :
    (("partial" : String) ≠ "" →
      (handleResponseComplete
        { TMState.init with currentResponse := "partial" } (some "r9")).2 =
        showTypingEvs false ++
          [.message "" "partial" "ai", .transcript "ai" "partial"] ∧
      countFinished (handleResponseComplete
        { TMState.init with currentResponse := "partial" } (some "r9")).2 = 1) ∧
    (("partial" : String) = "" →
      countFinished (handleResponseComplete
        { TMState.init with currentResponse := "partial" } (some "r9")).2 = 0) :=
  responseComplete_fallback
    { TMState.init with currentResponse := "partial" } "r9"
    (by decide) (by decide) (by decide)

/-! ## Barge-in debounce (C6) -/

/-- C6 counterexample: the claim asserts at most one interrupt for two
calls less than 1200 ms apart "regardless of the tracker state between
the calls".  If the tracker is `reset()` between the calls (which zeroes
`lastBargeInTime`) and a new response starts, both calls return `true`
although the timestamps differ by only 100 ms. -/
theorem bargeIn_debounce_cex :
    ((1300 : Int) - 1200).natAbs < 1200 ∧
    (handleSpeechStarted
      { TMState.init with activeResponseId := some "r1" } 1200).2.1 = true ∧
    (handleSpeechStarted
      (startResponse
        ((handleSpeechStarted
          { TMState.init with activeResponseId := some "r1" } 1200).1.reset)
        (some "r2")).1
      1300).2.1 = true := by
  decide

/-- C6 (amended): two `handleSpeechStarted` calls whose timestamps differ
by less than the 1200 ms cooldown produce at most one interrupt signal,
provided `lastBargeInTime` is not modified between the calls (the second
state at the second call carries the value left by the first call). -/
theorem bargeIn_debounce (st1 : TMState) (t1 : Int) (st2 : TMState) (t2 : Int)
    (hpersist : st2.lastBargeInTime = (handleSpeechStarted st1 t1).1.lastBargeInTime)
    (hclose : (t2 - t1).natAbs < 1200) :
    ¬((handleSpeechStarted st1 t1).2.1 = true ∧
      (handleSpeechStarted st2 t2).2.1 = true) := by
  rintro ⟨hb1, hb2⟩
  unfold handleSpeechStarted at hb1 hb2 hpersist
  by_cases c1 : t1 - st1.lastBargeInTime < bargeInCooldownMs
  · rw [if_pos c1] at hb1
    exact absurd hb1 (by simp)
  · rw [if_neg c1] at hb1 hpersist
    by_cases c2 : truthy st1.activeResponseId && !st1.isCancelling
    · rw [if_pos c2] at hpersist
      simp only at hpersist
      by_cases c3 : t2 - st2.lastBargeInTime < bargeInCooldownMs
      · rw [if_pos c3] at hb2
        exact absurd hb2 (by simp)
      · rw [hpersist] at c3
        unfold bargeInCooldownMs at c3
        omega
    · rw [if_neg c2] at hb1
      exact absurd hb1 (by simp)

/-- Witness for the amended C6 at a concrete input. -/
theorem bargeIn_debounce_witness :
    ¬((handleSpeechStarted
        { TMState.init with activeResponseId := some "r1" } 1200).2.1 = true ∧
      (handleSpeechStarted
        (handleSpeechStarted
          { TMState.init with activeResponseId := some "r1" } 1200).1 1300).2.1 = true) :=
  bargeIn_debounce
    { TMState.init with activeResponseId := some "r1" } 1200
    (handleSpeechStarted
      { TMState.init with activeResponseId := some "r1" } 1200).1 1300
    (by decide) (by decide)

/-! ## Playback queue (C8) -/

theorem playQueue_busy {α : Type} (s : AMState α) (h : s.isPlaying = true) :
    playQueue s = (s, none) := by
  simp [playQueue, h]

theorem drainTrace_idle {α : Type} (fuel : Nat) (s : AMState α)
    (h : s.isPlaying = false) : drainTrace fuel s = [] := by
  cases fuel with
  | zero => rfl
  | succ n => simp [drainTrace, h]

theorem enqueueAll_busy {α : Type} (bs : List α) : ∀ s : AMState α,
    s.isPlaying = true →
    enqueueAll s bs = ({ s with audioQueue := s.audioQueue ++ bs }, []) := by
  induction bs with
  | nil => intro s _; simp [enqueueAll]
  | cons b rest ih =>
    intro s h
    have h1 : enqueuePlay s b = ({ s with audioQueue := s.audioQueue ++ [b] }, none) := by
      simp [enqueuePlay, playQueue, h]
    simp only [enqueueAll, h1]
    rw [ih { s with audioQueue := s.audioQueue ++ [b] } h]
    simp

theorem drainTrace_playing {α : Type} (q : List α) : ∀ (s : AMState α) (fuel : Nat),
    s.isPlaying = true → s.audioQueue = q → q.length < fuel →
    drainTrace fuel s = q := by
  induction q with
  | nil =>
    intro s fuel hp hq hfuel
    cases fuel with
    | zero => omega
    | succ n =>
      simp only [drainTrace, hp, if_pos]
      have : onended s = ({ s with isPlaying := false, currentAudioSource := none }, none) := by
        simp [onended, playQueue, hq]
      rw [this]
      simp [drainTrace_idle]
  | cons b rest ih =>
    intro s fuel hp hq hfuel
    cases fuel with
    | zero => simp at hfuel
    | succ n =>
      simp only [drainTrace, hp, if_pos]
      have : onended s =
          ({ s with isPlaying := true, currentAudioSource := some b, audioQueue := rest },
            some b) := by
        simp [onended, playQueue, hq]
      rw [this]
      have hn : rest.length < n := by
        simp only [List.length_cons] at hfuel
        omega
      rw [ih _ n rfl rfl hn]
      rfl

/-- C8: enqueuing `N` buffers into a fresh playback scheduler and letting
the playback loop run to completion plays exactly those `N` buffers, in
FIFO order; and no buffer is ever started while another is playing
(`playQueue` returns without starting a source whenever `isPlaying`). -/
theorem playbackQueue_fifo (α : Type) (bs : List α) :
    ((enqueueAll (AMState.init α) bs).2 ++
      drainTrace (bs.length + 1) (enqueueAll (AMState.init α) bs).1) = bs ∧
    (∀ s : AMState α, s.isPlaying = true → playQueue s = (s, none)) := by
  refine ⟨?_, fun s h => playQueue_busy s h⟩
  cases bs with
  | nil =>
    simp [enqueueAll, drainTrace_idle, AMState.init]
  | cons b rest =>
    have h1 : enqueuePlay (AMState.init α) b =
        ({ AMState.init α with
            isPlaying := true, audioQueue := [], currentAudioSource := some b },
          some b) := by
      simp [enqueuePlay, playQueue, AMState.init]
    simp only [enqueueAll, h1]
    rw [enqueueAll_busy rest _ rfl]
    simp only [List.nil_append, List.length_cons]
    rw [drainTrace_playing rest _ (rest.length + 1 + 1) rfl rfl (by omega)]
    simp

/-! ## Interruption (C9) -/

/-- C9 counterexample: with a buffer playing (source `9`, one queued
buffer, one buffered chunk), `interrupt()` leaves `isPlaying` set — it
resets only `isProcessingAudio` — so an immediately subsequent enqueue
does *not* start playback: the new buffer waits until the stopped
stopped source fires `onended`.  This refutes "resets the internal
processing flags, so that a subsequent enqueue starts playback fresh". -/
theorem interrupt_cex :
    (interrupt (⟨[10], ["c"], true, false, some 9⟩ : AMState Nat)).1.isPlaying = true ∧
    (enqueuePlay (interrupt (⟨[10], ["c"], true, false, some 9⟩ : AMState Nat)).1 11).2
      = none := by
  decide

/-- C9 (amended): `interrupt()` called while a buffer is playing
synchronously stops the current source, leaves both `audioQueue` and
`audioChunks` empty and resets `isProcessingAudio`; `isPlaying` stays set
until the `onended` callback of the stopped source runs, so a subsequent
enqueue does not start a source immediately, but once that `onended`
fires the newly enqueued buffer plays fresh from an empty queue. -/
theorem interrupt_amended (α : Type) (s : AMState α) (b : α)
    (hcur : s.currentAudioSource.isSome = true) (hplay : s.isPlaying = true) :
    (interrupt s).2 = true ∧
    (interrupt s).1.audioQueue = [] ∧
    (interrupt s).1.audioChunks = [] ∧
    (interrupt s).1.isProcessingAudio = false ∧
    (enqueuePlay (interrupt s).1 b).2 = none ∧
    (onended (enqueuePlay (interrupt s).1 b).1).2 = some b ∧
    (onended (enqueuePlay (interrupt s).1 b).1).1.audioQueue = [] := by
  refine ⟨by simp [interrupt, hcur], by simp [interrupt, clearQueues],
    by simp [interrupt, clearQueues], by simp [interrupt, clearQueues], ?_, ?_, ?_⟩
  · simp [enqueuePlay, playQueue, interrupt, clearQueues, hplay]
  · simp [onended, enqueuePlay, playQueue, interrupt, clearQueues, hplay]
  · simp [onended, enqueuePlay, playQueue, interrupt, clearQueues, hplay]

/-- Witness for the amended C9 at a concrete input. -/
theorem interrupt_amended_witness :
    (interrupt (⟨[10], ["c"], true, false, some 9⟩ : AMState Nat)).2 = true ∧
    (interrupt (⟨[10], ["c"], true, false, some 9⟩ : AMState Nat)).1.audioQueue = [] ∧
    (interrupt (⟨[10], ["c"], true, false, some 9⟩ : AMState Nat)).1.audioChunks = [] ∧
    (interrupt (⟨[10], ["c"], true, false, some 9⟩ : AMState Nat)).1.isProcessingAudio
      = false ∧
    (enqueuePlay
      (interrupt (⟨[10], ["c"], true, false, some 9⟩ : AMState Nat)).1 11).2 = none ∧
    (onended (enqueuePlay
      (interrupt (⟨[10], ["c"], true, false, some 9⟩ : AMState Nat)).1 11).1).2
      = some 11 ∧
    (onended (enqueuePlay
      (interrupt (⟨[10], ["c"], true, false, some 9⟩ : AMState Nat)).1 11).1).1.audioQueue
      = [] :=
  interrupt_amended Nat ⟨[10], ["c"], true, false, some 9⟩ 11 (by decide) (by decide)

/-! ## Connection-loss handling (C3) -/

/-- C3: evaluating the modular wiring at the failing input.  When the
websocket closes during an active session with no intentional stop in
progress, the calls actually made are two `onConnectionChange
"disconnected"` notifications — no `stopVoiceChat` call and no error
callback — although `LeetSpeakVoiceClient.handleDisconnection` (which is
never invoked on this path) would perform exactly the claimed stop and
error. -/
theorem connectionLoss_missing_stop :
    wsOnCloseCalls =
      [.connectionChange "disconnected", .connectionChange "disconnected"] ∧
    ClientCall.stopVoiceChatCall ∉ wsOnCloseCalls ∧
    (∀ m, ClientCall.errorCallback m ∉ wsOnCloseCalls) ∧
    clientHandleDisconnection true false =
      [.stopVoiceChatCall, .errorCallback "Connection lost. Please try again."] := by
  refine ⟨by decide, by decide, ?_, by decide⟩
  intro m
  simp [wsOnCloseCalls, wsManagerHandleDisconnection]

/-! ## At-most-once resolution (C2) -/

theorem step_resolves_bound (s : CState) (a : Act) :
    countResolves (step s a).2 + (if (step s a).1.resolver then 1 else 0) ≤
      (if s.resolver then 1 else 0) := by
  cases a <;>
    simp only [step, stepDone, stepCreated, stepFetchThen, stepFetchCatch,
      stepStopFetchThen, stepStopFetchCatch, stepStopResume, resolveNow] <;>
    split_ifs <;>
    simp_all [countResolves, isResolve]

theorem stepsRun_resolves (acts : List Act) : ∀ s : CState,
    countResolves (stepsRun s acts).2 +
        (if (stepsRun s acts).1.resolver then 1 else 0) ≤
      (if s.resolver then 1 else 0) := by
  induction acts with
  | nil => intro s; simp [stepsRun, countResolves]
  | cons a rest ih =>
    intro s
    have h1 := step_resolves_bound s a
    have h2 := ih (step s a).1
    simp only [stepsRun, countResolves, List.filter_append, List.length_append] at *
    omega

/-- C2: during any single shutdown initiated by `stopVoiceChat` — with or
without an active response — the pending shutdown resolver is invoked at
most once, for every interleaving of the explicit evaluation-trigger path
in `stopVoiceChat` and the event-driven completion path in
`handleBackendMessage`. -/
theorem shutdownResolve_at_most_once (active0 : Option String)
    (completed0 : List String) (acts : List Act) :
    countResolves (runShutdown active0 completed0 acts).2 ≤ 1 := by
  unfold runShutdown
  have h := stepsRun_resolves acts (stopInit active0 completed0).1
  have hr : (stopInit active0 completed0).1.resolver = true := by
    unfold stopInit
    split_ifs <;> rfl
  have hc : countResolves (stopInit active0 completed0).2 = 0 := by
    unfold stopInit
    split_ifs <;> rfl
  rw [hr] at h
  simp only [if_pos] at h
  simp only [countResolves, List.filter_append, List.length_append] at *
  omega

/-! ## Shutdown ordering (C1) -/

theorem obState_append (a b : Ev) (xs ys : List Ev) :
    obState a b (xs ++ ys) =
      match obState a b xs with
      | some v => some v
      | none => obState a b ys := by
  induction xs with
  | nil => simp [obState]
  | cons e rest ih =>
    simp only [List.cons_append, obState]
    split_ifs <;> simp [ih]

theorem step_created_only (s : CState) (a : Act) (o : Option String)
    (h : Ev.createdHandled o ∈ (step s a).2) : ∃ oid, a = Act.createdEvt oid := by
  cases a with
  | createdEvt oid => exact ⟨oid, rfl⟩
  | _ =>
    exfalso
    revert h
    simp only [step, stepDone, stepCreated, stepFetchThen, stepFetchCatch,
      stepStopFetchThen, stepStopFetchCatch, stepStopResume, resolveNow]
    split_ifs <;> simp

theorem no_created_after_then (rid eId : String) :
    ∀ (acts : List Act) (s : CState) (cdR cCr cdE : Bool),
      wfShutdownActs rid eId acts cdR cCr cdE true = true →
      ∀ o, Ev.createdHandled o ∉ (stepsRun s acts).2 := by
  intro acts
  induction acts with
  | nil => intro s cdR cCr cdE _ o; simp [stepsRun]
  | cons a rest ih =>
    intro s cdR cCr cdE hwf o hmem
    simp only [stepsRun, List.mem_append] at hmem
    cases a with
    | doneEvt i =>
      simp only [wfShutdownActs] at hwf
      rcases hmem with hmem | hmem
      · obtain ⟨oid, h⟩ := step_created_only s (.doneEvt i) o hmem
        simp at h
      · by_cases h1 : i = rid
        · rw [if_pos h1] at hwf
          simp only [Bool.and_eq_true] at hwf
          exact ih _ _ _ _ hwf.2 o hmem
        · rw [if_neg h1] at hwf
          by_cases h2 : i = eId
          · rw [if_pos h2] at hwf
            simp only [Bool.and_eq_true] at hwf
            exact ih _ _ _ _ hwf.2 o hmem
          · rw [if_neg h2] at hwf
            exact absurd hwf (by simp)
    | createdEvt oid => simp [wfShutdownActs] at hwf
    | fetchThen =>
      rcases hmem with hmem | hmem
      · obtain ⟨oid, h⟩ := step_created_only s .fetchThen o hmem
        simp at h
      · simp only [wfShutdownActs] at hwf
        exact ih _ _ _ _ hwf o hmem
    | fetchCatch => simp [wfShutdownActs] at hwf
    | stopFetchThen =>
      rcases hmem with hmem | hmem
      · obtain ⟨oid, h⟩ := step_created_only s .stopFetchThen o hmem
        simp at h
      · simp only [wfShutdownActs] at hwf
        exact ih _ _ _ _ hwf o hmem
    | stopFetchCatch =>
      rcases hmem with hmem | hmem
      · obtain ⟨oid, h⟩ := step_created_only s .stopFetchCatch o hmem
        simp at h
      · simp only [wfShutdownActs] at hwf
        exact ih _ _ _ _ hwf o hmem
    | stopResume =>
      rcases hmem with hmem | hmem
      · obtain ⟨oid, h⟩ := step_created_only s .stopResume o hmem
        simp at h
      · simp only [wfShutdownActs] at hwf
        exact ih _ _ _ _ hwf o hmem

theorem stepDone_first (s : CState) (rid : String) (hrid : rid ≠ "")
    (ha : s.active = some rid) (hw : s.waiting = true) (hrv : s.resolver = true)
    (he : s.evalTriggered = false) :
    step s (.doneEvt rid) =
      ({ s with active := none,
                completed := if rid ∈ s.completed then s.completed
                             else s.completed ++ [rid],
                evalTriggered := true, pending := true },
        [.handledDone rid, .triggerEval]) := by
  simp [step, stepDone, completeTM, hrid, ha, hw, hrv, he]

theorem stepDone_evalDone (s : CState) (eId : String) (heid : eId ≠ "")
    (ha : s.active = some eId) (hw : s.waiting = true) (hrv : s.resolver = true)
    (he : s.evalTriggered = true) :
    step s (.doneEvt eId) =
      ({ s with active := none,
                completed := if eId ∈ s.completed then s.completed
                             else s.completed ++ [eId],
                waiting := false, resolver := false, resolved := true },
        [.handledDone eId, .resolveCall]) := by
  simp [step, stepDone, completeTM, resolveNow, heid, ha, hw, hrv, he]

theorem stepFetchThen_resolve (s : CState) (hp : s.pending = true)
    (ha : s.active = none) (hw : s.waiting = true) (hrv : s.resolver = true) :
    step s .fetchThen =
      ({ s with pending := false, waiting := false, resolver := false,
                resolved := true },
        [.resolveCall]) := by
  simp [step, stepFetchThen, resolveNow, hp, ha, hw, hrv]

theorem shutdown_order_main (rid eId : String) (hrid : rid ≠ "") (heid : eId ≠ "")
    (hne : rid ≠ eId) :
    ∀ (acts : List Act) (s : CState) (cdR cCr cdE cfT : Bool),
      ShutInv rid eId cdR cCr cdE cfT s →
      wfShutdownActs rid eId acts cdR cCr cdE cfT = true →
      (cdR = false →
        obState (.handledDone rid) .stopSessionCall (stepsRun s acts).2 ≠ some false) ∧
      (s.resolved = false →
        obState .resolveCall .stopSessionCall (stepsRun s acts).2 ≠ some false) ∧
      (cdE = false →
        (cCr = true ∨ Ev.createdHandled (some eId) ∈ (stepsRun s acts).2) →
        obState (.handledDone eId) .stopSessionCall (stepsRun s acts).2 ≠ some false) := by
  intro acts
  induction acts with
  | nil =>
    intro s cdR cCr cdE cfT _ _
    refine ⟨fun _ => ?_, fun _ => ?_, fun _ h => ?_⟩ <;>
      simp_all [stepsRun, obState]
  | cons a rest ih =>
    intro s cdR cCr cdE cfT hinv hwf
    obtain ⟨hso, hsr, hccr, hcde, hA, hC, hD, hE, hR⟩ := hinv
    cases a with
    | doneEvt i =>
      simp only [wfShutdownActs] at hwf
      by_cases hi : i = rid
      · obtain rfl := hi.symm
        rw [if_pos rfl] at hwf
        cases cdR with
        | true => simp at hwf
        | false =>
        simp only [Bool.and_eq_true, Bool.not_eq_true'] at hwf
        replace hwf := hwf.2
        obtain ⟨hcc, hcd, ha, he, hw, hrv, hrd, hp, hsc⟩ := hA rfl
        subst hcc hcd
        have hstep := stepDone_first s rid hrid ha hw hrv he
        have hinv1 : ShutInv rid eId true false false cfT
            ({ s with active := none,
                      completed := if rid ∈ s.completed then s.completed
                                   else s.completed ++ [rid],
                      evalTriggered := true, pending := true }) := by
          clear hA hC hD hE hR hccr hcde hso hsr hwf ih hstep
          unfold ShutInv
          simp_all
        have hih := ih _ _ _ _ _ hinv1 hwf
        simp only [stepsRun, hstep]
        refine ⟨fun _ => ?_, fun _ => ?_, fun _ hcr => ?_⟩
        · simp [obState]
        · have h2 := hih.2.1 (by simpa using hrd)
          simpa [obState] using h2
        · rcases hcr with hcr | hcr
          · simp at hcr
          · simp only [List.cons_append, List.nil_append, List.mem_cons] at hcr
            rcases hcr with hcr | hcr | hcr
            · simp at hcr
            · simp at hcr
            · have h3 := hih.2.2 rfl (Or.inr hcr)
              simpa [obState, hne] using h3
      · rw [if_neg hi] at hwf
        by_cases hi2 : i = eId
        · obtain rfl := hi2.symm
          rw [if_pos rfl] at hwf
          cases cCr with
          | false => simp at hwf
          | true =>
          cases cdE with
          | true => simp at hwf
          | false =>
          simp only [Bool.and_eq_true, Bool.not_eq_true', and_true, true_and,
            Bool.true_and] at hwf
          obtain ⟨ha, he, hw, hrv, hrd, hsc⟩ := hD rfl rfl
          have hcdR := hccr rfl
          subst hcdR
          have hstep := stepDone_evalDone s eId heid ha hw hrv he
          have hinv1 : ShutInv rid eId true true true cfT
              ({ s with active := none,
                        completed := if eId ∈ s.completed then s.completed
                                     else s.completed ++ [eId],
                        waiting := false, resolver := false, resolved := true }) := by
            clear hA hC hD hE hR hccr hcde hso hsr hwf ih hstep
            unfold ShutInv
            simp_all
          have hih := ih _ _ _ _ _ hinv1 hwf
          simp only [stepsRun, hstep]
          refine ⟨fun h => ?_, fun _ => ?_, fun _ _ => ?_⟩
          · simp at h
          · simp [obState]
          · simp [obState]
        · rw [if_neg hi2] at hwf
          exact absurd hwf (by simp)
    | createdEvt oid =>
      simp only [wfShutdownActs, Bool.and_eq_true, Bool.not_eq_true',
        beq_iff_eq] at hwf
      obtain ⟨⟨⟨⟨hoid, hcc⟩, hcdR⟩, hcfT⟩, hwfr⟩ := hwf
      subst hoid hcc hcdR hcfT
      have hcdE : cdE = false := by
        cases hcd : cdE
        · rfl
        · exact absurd (hcde hcd) (by simp)
      subst hcdE
      have hrd : s.resolved = false := by
        cases h : s.resolved
        · rfl
        · rcases hR h with h' | h' <;> simp at h'
      obtain ⟨ha, he, hdis⟩ := hC rfl rfl rfl
      have hfirst :
          s.waiting = true ∧ s.resolver = true ∧ s.pending = true := by
        rcases hdis with ⟨h1, h2, _, h4⟩ | ⟨_, _, h3, _⟩
        · exact ⟨h1, h2, h4⟩
        · rw [hrd] at h3; simp at h3
      obtain ⟨hw, hrv, hp⟩ := hfirst
      have hsc : s.stopCo = StopCo.awaitingPromise := by
        rcases hso with h | h
        · exact h
        · rw [hsr h] at hrd; simp at hrd
      have hstep : step s (.createdEvt (some eId)) =
          ({ s with active := some eId }, [.createdHandled (some eId)]) := by
        simp [step, stepCreated]
      have hinv1 : ShutInv rid eId true true false false
          ({ s with active := some eId }) := by
        clear hA hC hD hE hR hccr hcde hso hsr hwfr ih hstep hdis
        unfold ShutInv
        simp_all
      have hih := ih _ _ _ _ _ hinv1 hwfr
      simp only [stepsRun, hstep]
      refine ⟨fun h => ?_, fun _ => ?_, fun _ _ => ?_⟩
      · simp at h
      · have h2 := hih.2.1 (by simpa using hrd)
        simpa [obState] using h2
      · have h3 := hih.2.2 rfl (Or.inl rfl)
        simpa [obState, hne] using h3
    | fetchThen =>
      simp only [wfShutdownActs] at hwf
      cases cdR with
      | false =>
        obtain ⟨hcc, hcd, ha, he, hw, hrv, hrd, hp, hsc⟩ := hA rfl
        subst hcc hcd
        have hstep : step s .fetchThen = (s, []) := by
          simp [step, stepFetchThen, hp]
        have hinv1 : ShutInv rid eId false false false true s := by
          clear hA hC hD hE hR hccr hcde hso hsr hwf ih hstep
          unfold ShutInv
          simp_all
        have hih := ih _ _ _ _ _ hinv1 hwf
        simp only [stepsRun, hstep]
        refine ⟨fun _ => ?_, fun _ => ?_, fun _ hcr => ?_⟩
        · simpa using hih.1 rfl
        · simpa using hih.2.1 hrd
        · rcases hcr with hcr | hcr
          · simp at hcr
          · simpa using hih.2.2 rfl (Or.inr (by simpa using hcr))
      | true =>
        cases cdE with
        | false =>
          cases cCr with
          | false =>
            obtain ⟨ha, he, hdis⟩ := hC rfl rfl rfl
            rcases hdis with ⟨hw, hrv, hrd, hp⟩ | ⟨hw, hrv, hrd, hp⟩
            · have hstep := stepFetchThen_resolve s hp ha hw hrv
              simp only [stepsRun, hstep]
              refine ⟨fun h => ?_, fun _ => ?_, fun _ hcr => ?_⟩
              · simp at h
              · simp [obState]
              · rcases hcr with hcr | hcr
                · simp at hcr
                · simp only [List.cons_append, List.nil_append,
                    List.mem_cons] at hcr
                  rcases hcr with hcr | hcr
                  · simp at hcr
                  · exact absurd hcr
                      (no_created_after_then rid eId rest _ _ _ _ hwf _)
            · have hstep : step s .fetchThen = (s, []) := by
                simp [step, stepFetchThen, hp]
              simp only [stepsRun, hstep]
              refine ⟨fun h => ?_, fun h => ?_, fun _ hcr => ?_⟩
              · simp at h
              · rw [h] at hrd; simp at hrd
              · rcases hcr with hcr | hcr
                · simp at hcr
                · simp only [List.nil_append] at hcr
                  exact absurd hcr
                    (no_created_after_then rid eId rest _ _ _ _ hwf _)
          | true =>
            obtain ⟨ha, he, hw, hrv, hrd, hsc⟩ := hD rfl rfl
            by_cases hp : s.pending = true
            · have hstep : step s .fetchThen = ({ s with pending := false }, []) := by
                simp [step, stepFetchThen, hp, ha]
              have hinv1 : ShutInv rid eId true true false true
                  ({ s with pending := false }) := by
                clear hA hC hD hE hR hccr hcde hso hsr hwf ih hstep
                unfold ShutInv
                simp_all
              have hih := ih _ _ _ _ _ hinv1 hwf
              simp only [stepsRun, hstep]
              refine ⟨fun h => ?_, fun _ => ?_, fun _ _ => ?_⟩
              · simp at h
              · simpa using hih.2.1 (by simpa using hrd)
              · simpa using hih.2.2 rfl (Or.inl rfl)
            · have hstep : step s .fetchThen = (s, []) := by
                simp only [Bool.not_eq_true] at hp
                simp [step, stepFetchThen, hp]
              have hinv1 : ShutInv rid eId true true false true s := by
                clear hA hC hD hE hR hccr hcde hso hsr hwf ih hstep
                unfold ShutInv
                simp_all
              have hih := ih _ _ _ _ _ hinv1 hwf
              simp only [stepsRun, hstep]
              refine ⟨fun h => ?_, fun _ => ?_, fun _ _ => ?_⟩
              · simp at h
              · simpa using hih.2.1 hrd
              · simpa using hih.2.2 rfl (Or.inl rfl)
        | true =>
          obtain ⟨ha, hw, hrv, hrd⟩ := hE rfl
          refine ⟨fun h => ?_, fun h => ?_, fun h => ?_⟩
          · simp at h
          · rw [h] at hrd; simp at hrd
          · simp at h
    | fetchCatch => simp [wfShutdownActs] at hwf
    | stopFetchThen =>
      simp only [wfShutdownActs] at hwf
      have hnf : ¬ s.stopCo = StopCo.awaitingFetch := by
        rcases hso with h | h <;> simp [h]
      have hstep : step s .stopFetchThen = (s, []) := by
        simp [step, stepStopFetchThen, hnf]
      have hih := ih _ _ _ _ _
        ⟨hso, hsr, hccr, hcde, hA, hC, hD, hE, hR⟩ hwf
      simp only [stepsRun, hstep]
      refine ⟨fun h => ?_, fun h => ?_, fun h1 h2 => ?_⟩
      · simpa using hih.1 h
      · simpa using hih.2.1 h
      · rcases h2 with h2 | h2
        · simpa using hih.2.2 h1 (Or.inl h2)
        · simpa using hih.2.2 h1 (Or.inr (by simpa using h2))
    | stopFetchCatch =>
      simp only [wfShutdownActs] at hwf
      have hnf : ¬ s.stopCo = StopCo.awaitingFetch := by
        rcases hso with h | h <;> simp [h]
      have hstep : step s .stopFetchCatch = (s, []) := by
        simp [step, stepStopFetchCatch, hnf]
      have hih := ih _ _ _ _ _
        ⟨hso, hsr, hccr, hcde, hA, hC, hD, hE, hR⟩ hwf
      simp only [stepsRun, hstep]
      refine ⟨fun h => ?_, fun h => ?_, fun h1 h2 => ?_⟩
      · simpa using hih.1 h
      · simpa using hih.2.1 h
      · rcases h2 with h2 | h2
        · simpa using hih.2.2 h1 (Or.inl h2)
        · simpa using hih.2.2 h1 (Or.inr (by simpa using h2))
    | stopResume =>
      simp only [wfShutdownActs] at hwf
      by_cases hen : s.stopCo = StopCo.awaitingPromise ∧ s.resolved = true
      · have hstep : step s .stopResume =
            ({ s with stopCo := .finished, active := none, completed := [] },
              [.stopSessionCall]) := by
          simp [step, stepStopResume, hen.1, hen.2]
        simp only [stepsRun, hstep]
        refine ⟨fun h => ?_, fun h => ?_, fun h1 h2 => ?_⟩
        · obtain ⟨-, -, -, -, -, -, hrd, -, -⟩ := hA h
          rw [hen.2] at hrd; simp at hrd
        · rw [h] at hen; simp at hen
        · have hcfT : cfT = true := by
            rcases hR hen.2 with h' | h'
            · exact h'
            · rw [h1] at h'; simp at h'
          rcases h2 with h2 | h2
          · obtain ⟨-, -, -, -, hrd, -⟩ := hD h2 h1
            rw [hen.2] at hrd; simp at hrd
          · rw [hcfT] at hwf
            simp only [List.cons_append, List.nil_append, List.mem_cons] at h2
            rcases h2 with h2 | h2
            · simp at h2
            · exact absurd h2
                (no_created_after_then rid eId rest _ _ _ _ hwf _)
      · have hstep : step s .stopResume = (s, []) := by
          simp only [step, stepStopResume]
          rw [if_neg hen]
        have hih := ih _ _ _ _ _
          ⟨hso, hsr, hccr, hcde, hA, hC, hD, hE, hR⟩ hwf
        simp only [stepsRun, hstep]
        refine ⟨fun h => ?_, fun h => ?_, fun h1 h2 => ?_⟩
        · simpa using hih.1 h
        · simpa using hih.2.1 h
        · rcases h2 with h2 | h2
          · simpa using hih.2.2 h1 (Or.inl h2)
          · simpa using hih.2.2 h1 (Or.inr (by simpa using h2))

theorem occursBefore_of_ne (a b : Ev) (tr : List Ev)
    (h : obState a b tr ≠ some false) : occursBefore a b tr = true := by
  unfold occursBefore
  cases hob : obState a b tr with
  | none => rfl
  | some v =>
    cases v with
    | false => exact absurd hob h
    | true => rfl

/-- C1 counterexample: a well-formed shutdown run (each response completes
once, the evaluation response `"e"` is created only after the trigger) in
which the trigger fetch's success callback runs *before* the evaluation
created event of the evaluation response arrives.  The callback sees `activeResponseId ===
null`, resolves the shutdown promise, and `stopVoiceChat` calls the
backend stop-session *before* the evaluation response (which does start,
and completes) has been handled — refuting the claim as stated. -/
theorem shutdown_stopSession_cex :
    wfBase "r" "e"
      [Act.doneEvt "r", Act.fetchThen, Act.stopResume,
       Act.createdEvt (some "e"), Act.doneEvt "e"] false false false = true ∧
    Ev.createdHandled (some "e") ∈
      (runShutdown (some "r") []
        [Act.doneEvt "r", Act.fetchThen, Act.stopResume,
         Act.createdEvt (some "e"), Act.doneEvt "e"]).2 ∧
    ¬ shutdownOrdered "r" "e"
        (runShutdown (some "r") []
          [Act.doneEvt "r", Act.fetchThen, Act.stopResume,
           Act.createdEvt (some "e"), Act.doneEvt "e"]).2 := by
  unfold shutdownOrdered
  decide

/-- C1 (amended): for every shutdown run with an active response `rid` at
the moment `stopVoiceChat` is called, provided the run is well-formed, the
evaluation trigger call succeeds, and the created event (if any) of the
evaluation response is handled before the completion callback of the
trigger call
runs (`wfShutdownActs`), the backend stop-session call is made strictly
after (1) the completion event of the active response has been handled
and (2)
the completion of the evaluation response, whenever one starts; and
`stopVoiceChat` never calls `SessionManager.stopSession` before the
shared completion promise is resolved. -/
theorem shutdown_stopSession_after_completions (rid eId : String)
    (completed0 : List String) (acts : List Act)
    (hrid : rid ≠ "") (heid : eId ≠ "") (hne : rid ≠ eId)
    (hwf : wfShutdownActs rid eId acts false false false false = true) :
    shutdownOrdered rid eId (runShutdown (some rid) completed0 acts).2 := by
  have hinit : stopInit (some rid) completed0 =
      ({ active := some rid, completed := completed0, waiting := true,
         evalTriggered := false, resolver := true, resolved := false,
         pending := false, stopCo := .awaitingPromise }, []) := by
    simp [stopInit]
  have hinv : ShutInv rid eId false false false false
      { active := some rid, completed := completed0, waiting := true,
        evalTriggered := false, resolver := true, resolved := false,
        pending := false, stopCo := .awaitingPromise } := by
    unfold ShutInv
    simp
  have h := shutdown_order_main rid eId hrid heid hne acts _
    false false false false hinv hwf
  unfold runShutdown shutdownOrdered
  rw [hinit]
  simp only [List.nil_append]
  exact ⟨occursBefore_of_ne _ _ _ (h.1 rfl),
    fun hm => occursBefore_of_ne _ _ _ (h.2.2 rfl (Or.inr hm)),
    occursBefore_of_ne _ _ _ (h.2.1 rfl)⟩

/-- Witness for the amended C1 at a concrete well-formed run. -/
theorem shutdown_stopSession_after_completions_witness :
    wfShutdownActs "r" "e"
      [Act.doneEvt "r", Act.createdEvt (some "e"), Act.fetchThen,
       Act.doneEvt "e", Act.stopResume] false false false false = true ∧
    shutdownOrdered "r" "e"
      (runShutdown (some "r") []
        [Act.doneEvt "r", Act.createdEvt (some "e"), Act.fetchThen,
         Act.doneEvt "e", Act.stopResume]).2 :=
  ⟨by decide,
    shutdown_stopSession_after_completions "r" "e" []
      [Act.doneEvt "r", Act.createdEvt (some "e"), Act.fetchThen,
       Act.doneEvt "e", Act.stopResume]
      (by decide) (by decide) (by decide) (by decide)⟩

end LeetSpeak
